import Mathlib

/-!
Shallow embedding of the seat-capacity and stop-ordering core of the
routes-chat-app repository (Node.js backend backed by PostgreSQL).

Embedded source files:
- src/backend/src/models/TripRequest.js (class TripRequest)
- src/unnamed/part_005 (class Trip)
- src/backend/src/models/StopPoint.js (class StopPoint)
- src/backend/src/database/routes-init.js (table schemas and constraints)
- src/backend/src/routes/trips.js (HTTP handlers for trip mutation)

The durable PostgreSQL store is modelled as an explicit state value `DB`
holding the trips and trip_requests tables as lists of rows.  SQL queries
of the source are translated query-by-query into list operations.  Each
mutating operation returns the new store together with an optional error,
mirroring a thrown JavaScript error; a thrown error does NOT undo writes
that already happened earlier in the same method, exactly as in the
source, where there is no transaction around the statements.
-/

namespace RoutesChat

/-- Request lifecycle statuses, from the CHECK constraint on
trip_requests.request_status in routes-init.js. -/
inductive RequestStatus
  | pending
  | approved
  | rejected
  | cancelled
deriving DecidableEq, Repr

/-- Trip lifecycle statuses, from the trips table schema. -/
inductive TripStatus
  | scheduled
  | active
  | completed
  | cancelled
deriving DecidableEq, Repr

/-- Row of the trip_requests table (routes-init.js).  Fields not touched by
the claims under verification (stop references, message, timestamps, the
monetary total_price) are omitted; they are never read by the embedded
operations. -/
structure TripRequest where
  id : Nat
  trip_id : Nat
  passenger_id : Nat
  requested_seats : Nat
  request_status : RequestStatus
deriving DecidableEq, Repr

/-- Row of the trips table.  departure_time is modelled as an integer
timestamp (JavaScript Date values compare numerically).  Monetary fields
are omitted: no embedded operation reads them. -/
structure Trip where
  id : Nat
  driver_id : Nat
  available_seats : Nat
  trip_status : TripStatus
  departure_time : Int
deriving DecidableEq, Repr

/-- The durable store: the two tables the claims are about. -/
structure DB where
  trips : List Trip
  requests : List TripRequest
deriving DecidableEq, Repr

/-- Errors surfaced by the embedded operations.  Each constructor stands
for one thrown JavaScript error or early HTTP error response:
- requestNotFound: "Trip request not found" (TripRequest.updateStatus)
- tripNotFound: "Trip not found" (TripRequest.create, trips.js 404)
- notEnoughSeats: "Not enough available seats" (TripRequest.updateStatus)
- uniqueViolation: insert rejected by a UNIQUE constraint of
  routes-init.js (unique_passenger_trip or a primary key)
- notAuthorized: 403 responses of trips.js
- tripAlreadyStarted: "Cannot cancel/update trip that has already
  started" 400 responses of trips.js
- validationFailed: "Departure time must be in the future"
- noValidFields: "No valid fields to update" (Trip.update)
- stopNotFound: "Stop point not found" (StopPoint.delete) -/
inductive Err
  | requestNotFound
  | tripNotFound
  | notEnoughSeats
  | uniqueViolation
  | notAuthorized
  | tripAlreadyStarted
  | validationFailed
  | noValidFields
  | stopNotFound
deriving DecidableEq, Repr

/-- Lookup of a trips row by id: SELECT ... FROM trips WHERE id = $1. -/
def findTrip (db : DB) (tid : Nat) : Option Trip :=
  db.trips.find? fun t => t.id == tid

/-- Lookup of a trip_requests row by id: SELECT ... WHERE tr.id = $1. -/
def findRequest (db : DB) (rid : Nat) : Option TripRequest :=
  db.requests.find? fun r => r.id == rid

/-- Sum of requested_seats over the approved requests of one trip: the SQL
subquery SELECT SUM(tr.requested_seats) FROM trip_requests tr WHERE
tr.trip_id = t.id AND tr.request_status = approved, with COALESCE(..., 0)
for the empty case (part_005, Trip.getRemainingSeats). -/
def approvedSeats (db : DB) (tid : Nat) : Nat :=
  ((db.requests.filter fun r =>
      r.trip_id == tid && r.request_status == RequestStatus.approved).map
    fun r => r.requested_seats).sum

/-- Trip.getRemainingSeats (part_005 lines 303-321).  The SQL computes
available_seats minus the approved sum for the row WHERE t.id = $1; the
JavaScript then runs parseInt(row?.remaining_seats) || this.available_seats.
When the query returns no row (trip id absent) parseInt yields NaN, which
is falsy, so the method falls back to the available_seats field of the
in-memory instance; when the computed difference is exactly 0, the 0 is
also falsy and the same fallback fires; a negative difference is truthy
and is returned as is. -/
def getRemainingSeats (db : DB) (t : Trip) : Int :=
  match findTrip db t.id with
  | none => (t.available_seats : Int)
  | some row =>
      let r : Int := (row.available_seats : Int) - (approvedSeats db t.id : Int)
      if r = 0 then (t.available_seats : Int) else r

/-- Trip.hasAvailableSeats (part_005): remaining >= requestedSeats. -/
def hasAvailableSeats (db : DB) (t : Trip) (requestedSeats : Nat) : Bool :=
  decide ((requestedSeats : Int) ≤ getRemainingSeats db t)

/-- Trip.isBookable (part_005 lines 334-342): the status must be
"scheduled", the departure time must lie strictly after now, and the
check on seats reads the raw available_seats column of the trip row
(this.available_seats > 0); it does not consult the request ledger. -/
def isBookable (t : Trip) (now : Int) : Bool :=
  t.trip_status == TripStatus.scheduled &&
    decide (now < t.departure_time) &&
    decide (0 < t.available_seats)

/-- UPDATE trip_requests SET request_status = $1 WHERE id = $2. -/
def setRequestStatus (db : DB) (rid : Nat) (st : RequestStatus) : DB :=
  { db with
    requests := db.requests.map fun r =>
      if r.id == rid then { r with request_status := st } else r }

/-- Capacity re-check of TripRequest.updateStatus (TripRequest.js lines
187-195): after the status write, and only when the new status is
"approved", the method re-reads the trip of the (already updated) request
and calls hasAvailableSeats on the updated store; a missing row throws,
and a failed check throws "Not enough available seats". -/
def approvalCheck (db1 : DB) (rid : Nat) : Option Err :=
  match findRequest db1 rid with
  | none => some Err.requestNotFound
  | some req =>
      match findTrip db1 req.trip_id with
      | none => some Err.tripNotFound
      | some trip =>
          if hasAvailableSeats db1 trip req.requested_seats then none
          else some Err.notEnoughSeats

/-- TripRequest.updateStatus (TripRequest.js lines 163-201).  The
allowedStatuses guard of the source admits exactly the constructors of
RequestStatus, so it is vacuous here.  The UPDATE runs first; if it
matched no row the method throws "Trip request not found" with the store
unchanged.  Only then, and only for an approval, does the capacity
re-check of approvalCheck run - on the store that already holds the
status write, and with nothing rolling that write back when the check
fails.  The first component of the result is the store the method leaves
behind, the second the error it throws, if any. -/
def updateStatus (db : DB) (rid : Nat) (st : RequestStatus) : DB × Option Err :=
  match findRequest db rid with
  | none => (db, some Err.requestNotFound)
  | some _ =>
      let db1 := setRequestStatus db rid st
      (db1, if st = RequestStatus.approved then approvalCheck db1 rid else none)

/-- TripRequest.approve (TripRequest.js lines 203-206). -/
def approveRequest (db : DB) (rid : Nat) : DB × Option Err :=
  updateStatus db rid RequestStatus.approved

/-- TripRequest.reject (TripRequest.js lines 208-211). -/
def rejectRequest (db : DB) (rid : Nat) : DB × Option Err :=
  updateStatus db rid RequestStatus.rejected

/-- TripRequest.cancel (TripRequest.js lines 213-216). -/
def cancelRequest (db : DB) (rid : Nat) : DB × Option Err :=
  updateStatus db rid RequestStatus.cancelled

/-- TripRequest.create (TripRequest.js lines 21-57) combined with the
trip_requests schema of routes-init.js.  The method first reads the trip
row for the price (throwing "Trip not found" when absent), then runs a
plain INSERT; the database rejects the insert when a row with the same
(trip_id, passenger_id) already exists (CONSTRAINT unique_passenger_trip)
or when the primary key is taken.  request_status defaults to "pending".
The rid argument stands for the SERIAL id the store assigns. -/
def createRequest (db : DB) (rid tid pid seats : Nat) : DB × Option Err :=
  match findTrip db tid with
  | none => (db, some Err.tripNotFound)
  | some _ =>
      if db.requests.any fun r => r.trip_id == tid && r.passenger_id == pid then
        (db, some Err.uniqueViolation)
      else if db.requests.any fun r => r.id == rid then
        (db, some Err.uniqueViolation)
      else
        ({ db with
           requests := db.requests ++
             [{ id := rid, trip_id := tid, passenger_id := pid,
                requested_seats := seats,
                request_status := RequestStatus.pending }] }, none)

/-- Trip.create (part_005): INSERT INTO trips, with the SERIAL primary
key modelled as a uniqueness check on the supplied id. -/
def createTrip (db : DB) (t : Trip) : DB × Option Err :=
  if db.trips.any fun x => x.id == t.id then
    (db, some Err.uniqueViolation)
  else
    ({ db with trips := db.trips ++ [t] }, none)

/-- Modelled from the spec: Trip.hasStarted is called by the cancel and
update handlers of trips.js but is defined nowhere under src (the Trip
class of part_005 has no such method).  Section 4.3 of the spec defines a
trip that has started as now >= departure_time. -/
def hasStarted (t : Trip) (now : Int) : Bool :=
  decide (t.departure_time ≤ now)

/-- DELETE /:id of trips.js (lines 264-293): 404 when the trip is
missing, 403 when the caller is not the driver, 400 (mapped to
tripAlreadyStarted) when hasStarted, and only then Trip.cancel, which is
Trip.update with trip_status = "cancelled" (part_005 lines 256-259). -/
def cancelTripRoute (db : DB) (tid uid : Nat) (now : Int) : DB × Option Err :=
  match findTrip db tid with
  | none => (db, some Err.tripNotFound)
  | some t =>
      if t.driver_id ≠ uid then (db, some Err.notAuthorized)
      else if hasStarted t now then (db, some Err.tripAlreadyStarted)
      else
        ({ db with
           trips := db.trips.map fun x =>
             if x.id == tid then { x with trip_status := TripStatus.cancelled }
             else x }, none)

/-- Body fields of PUT /:id of trips.js that survive into the embedded
Trip model.  vehicle_info, notes and the location arrays are not columns
of the trips table of routes-init.js and are dropped by the allowedFields
filter of Trip.update, so they are omitted here. -/
structure TripUpdate where
  departure_datetime : Option Int
  available_seats : Option Nat
  status : Option TripStatus
deriving Repr

/-- PUT /:id of trips.js (update trip): 404, then the driver check, then
the hasStarted guard, then validation that a supplied departure time lies
in the future.  The handler then calls Trip.update (part_005) whose
allowedFields list contains available_seats but neither
departure_datetime nor status (the model column names are departure_time
and trip_status), so only available_seats is persisted; when no field
survives the filter Trip.update throws "No valid fields to update". -/
def updateTripRoute (db : DB) (tid uid : Nat) (now : Int) (u : TripUpdate) :
    DB × Option Err :=
  match findTrip db tid with
  | none => (db, some Err.tripNotFound)
  | some t =>
      if t.driver_id ≠ uid then (db, some Err.notAuthorized)
      else if hasStarted t now then (db, some Err.tripAlreadyStarted)
      else if u.departure_datetime.isSome ∧ u.departure_datetime.get! ≤ now then
        (db, some Err.validationFailed)
      else
        match u.available_seats with
        | some n =>
            ({ db with
               trips := db.trips.map fun x =>
                 if x.id == tid then { x with available_seats := n } else x },
             none)
        | none => (db, some Err.noValidFields)

/-- States of the store reachable from the empty store through the
provided operations: trip creation, request creation, and the status
transitions (approve, reject, cancel all route through
TripRequest.updateStatus).  Every step keeps the first component of the
returned pair, whether or not the operation also surfaced an error,
because a thrown error never undoes the writes that preceded it. -/
inductive Reachable : DB → Prop
  | init : Reachable { trips := [], requests := [] }
  | newTrip {db : DB} (t : Trip) :
      Reachable db → Reachable (createTrip db t).1
  | newRequest {db : DB} (rid tid pid seats : Nat) :
      Reachable db → Reachable (createRequest db rid tid pid seats).1
  | statusChange {db : DB} (rid : Nat) (st : RequestStatus) :
      Reachable db → Reachable (updateStatus db rid st).1

/-- Row of the stop_points table (routes-init.js), restricted to the
fields the ordering claims read: id, route_id, stop_order. -/
structure StopPoint where
  id : Nat
  route_id : Nat
  stop_order : Nat
deriving DecidableEq, Repr

/-- Comparison used by ORDER BY stop_order. -/
def stopLe (a b : StopPoint) : Prop := a.stop_order ≤ b.stop_order

instance : DecidableRel stopLe := fun a b => Nat.decLe a.stop_order b.stop_order

instance : IsTotal StopPoint stopLe := ⟨fun a b => Nat.le_total a.stop_order b.stop_order⟩

instance : IsTrans StopPoint stopLe := ⟨fun _ _ _ => Nat.le_trans⟩

/-- Inner subquery of StopPoint.reorderStopPoints (StopPoint.js lines
188-206): SELECT id, ROW_NUMBER() OVER (ORDER BY stop_order) as new_order
FROM stop_points WHERE route_id = $1.  ROW_NUMBER assigns 1-based
positions in the ORDER BY order; the sort is modelled by insertionSort,
which agrees with any SQL ordering once the stop_order values of the
route are distinct. -/
def rowNumberTable (stops : List StopPoint) (routeId : Nat) : List (Nat × Nat) :=
  ((List.insertionSort stopLe
      (stops.filter fun s => s.route_id == routeId)).enum).map
    fun p => (p.2.id, p.1 + 1)

/-- Outer UPDATE of StopPoint.reorderStopPoints: UPDATE stop_points SET
stop_order = new_order FROM (subquery) WHERE stop_points.id =
ordered_stops.id.  Rows of other routes never appear in the table and
keep their order. -/
def reorderStopPoints (stops : List StopPoint) (routeId : Nat) : List StopPoint :=
  let tbl := rowNumberTable stops routeId
  stops.map fun s =>
    match tbl.lookup s.id with
    | some n => { s with stop_order := n }
    | none => s

/-- StopPoint.delete (StopPoint.js lines 168-186): DELETE ... WHERE id =
$1 RETURNING id, throwing "Stop point not found" when nothing matched,
then reorderStopPoints on the route of the deleted stop, reading the
table state after the deletion. -/
def deleteStopPoint (stops : List StopPoint) (sid : Nat) :
    List StopPoint × Option Err :=
  match stops.find? fun s => s.id == sid with
  | none => (stops, some Err.stopNotFound)
  | some s =>
      let remaining := stops.filter fun x => !(x.id == sid)
      (reorderStopPoints remaining s.route_id, none)

/-! Concrete fixtures used by the evaluation theorems below. -/

/-- Trip fixture: 2 seats, scheduled, departure at time 100. -/
def tripA : Trip :=
  { id := 1, driver_id := 99, available_seats := 2,
    trip_status := TripStatus.scheduled, departure_time := 100 }

/-- Store fixture: tripA with a single approved request for both seats,
so the true remainder is 0. -/
def dbFull : DB :=
  { trips := [tripA],
    requests := [{ id := 10, trip_id := 1, passenger_id := 2,
                   requested_seats := 2,
                   request_status := RequestStatus.approved }] }

/-- Store fixture: tripA with a single pending one-seat request. -/
def dbPend : DB :=
  { trips := [tripA],
    requests := [{ id := 10, trip_id := 1, passenger_id := 2,
                   requested_seats := 1,
                   request_status := RequestStatus.pending }] }

/-- Trip fixture with a single seat. -/
def tripOneSeat : Trip :=
  { id := 1, driver_id := 99, available_seats := 1,
    trip_status := TripStatus.scheduled, departure_time := 100 }

/-- Store fixture: tripOneSeat with a pending request for 2 seats. -/
def dbOneSeat : DB :=
  { trips := [tripOneSeat],
    requests := [{ id := 10, trip_id := 1, passenger_id := 2,
                   requested_seats := 2,
                   request_status := RequestStatus.pending }] }

/-- Store reached from the empty store by: create tripA (2 seats), create
a request for 2 seats from passenger 2, approve it, create a request for
2 seats from passenger 3, approve that too.  The last approval throws
"Not enough available seats", but only after its status write. -/
def overbookedState : DB :=
  (updateStatus
    (createRequest
      (updateStatus
        (createRequest ((createTrip { trips := [], requests := [] } tripA).1)
          10 1 2 2).1
        10 RequestStatus.approved).1
      11 1 3 2).1
    11 RequestStatus.approved).1

/-- Reachable store holding one pending request of passenger 2 on
tripA. -/
def reachedPending : DB :=
  (createRequest ((createTrip { trips := [], requests := [] } tripA).1)
    10 1 2 1).1

/-- Reachable store where the request of passenger 2 on tripA has been
cancelled. -/
def reachedCancelled : DB :=
  (updateStatus reachedPending 10 RequestStatus.cancelled).1

/-- Four stops of route 7 with the dense orders 1, 2, 3, 4. -/
def stops1234 : List StopPoint :=
  [{ id := 1, route_id := 7, stop_order := 1 },
   { id := 2, route_id := 7, stop_order := 2 },
   { id := 3, route_id := 7, stop_order := 3 },
   { id := 4, route_id := 7, stop_order := 4 }]

/-- Content of CONSTRAINT unique_passenger_trip UNIQUE(trip_id,
passenger_id) of routes-init.js: no two stored request rows agree on both
trip_id and passenger_id. -/
def pairUnique (db : DB) : Prop :=
  db.requests.Pairwise fun a b =>
    ¬(a.trip_id = b.trip_id ∧ a.passenger_id = b.passenger_id)

/-- Content of CONSTRAINT fk_trip_requests_trip_id of routes-init.js:
every stored request references a stored trip. -/
def requestsHaveTrips (db : DB) : Prop :=
  ∀ r ∈ db.requests, ∃ t ∈ db.trips, t.id = r.trip_id

/-! Theorems. -/

/-- C1: the claim states that in every reachable store the approved seat
sum of a trip stays at or below available_seats.  The code breaks it:
overbookedState is reached through the provided operations alone (create
trip with 2 seats, create and approve a 2-seat request, create and
approve a second 2-seat request; the second approval throws only after
its status write and rolls nothing back), yet it stores 4 approved seats
against 2 available. -/
theorem c1_capacity_invariant_broken :
    Reachable overbookedState ∧
    (findTrip overbookedState 1).map (fun t => t.available_seats) = some 2 ∧
    approvedSeats overbookedState 1 = 4 :=
  ⟨Reachable.statusChange 11 RequestStatus.approved
      (Reachable.newRequest 11 1 3 2
        (Reachable.statusChange 10 RequestStatus.approved
          (Reachable.newRequest 10 1 2 2
            (Reachable.newTrip tripA Reachable.init)))),
   by decide, by decide⟩

/-- C2: the claim states that approval checks capacity before flipping
the stored status, and that on a failed check the request is still
pending.  Evaluating the code on a pending 2-seat request against a
1-seat trip: the approve call does throw "Not enough available seats",
but the stored status afterwards is "approved", not "pending" - the
write happens first and is never rolled back. -/
theorem c2_approval_flips_before_check :
    (approveRequest dbOneSeat 10).2 = some Err.notEnoughSeats ∧
    (findRequest (approveRequest dbOneSeat 10).1 10).map
      (fun r => r.request_status) = some RequestStatus.approved := by
  decide

/-- C3: the claim states getRemainingSeats returns available_seats minus
the approved sum, in particular 0 when the trip is exactly full.  On a
full trip (2 seats, one approved 2-seat request) the true remainder is 0,
but the code returns 2: the JavaScript expression
parseInt(x) || this.available_seats treats the computed 0 as falsy and
falls back to the full capacity. -/
theorem c3_remaining_zero_misreported :
    (tripA.available_seats : Int) - (approvedSeats dbFull tripA.id : Int) = 0 ∧
    getRemainingSeats dbFull tripA = 2 := by
  decide

/-- C6: the claim states isBookable is equivalent to scheduled, future
departure and positive REMAINING seats.  Counterexample: tripA at time 0
is fully booked in dbFull (remaining 0), yet isBookable returns true,
because the code tests the raw available_seats column. -/
theorem c6_counterexample :
    ¬(isBookable tripA 0 = true ↔
        (tripA.trip_status = TripStatus.scheduled ∧
          (0 : Int) < tripA.departure_time ∧
          0 < (tripA.available_seats : Int) -
                (approvedSeats dbFull tripA.id : Int))) := by
  decide

/-- C6 amended: isBookable returns true exactly when the trip status is
"scheduled", the departure time lies strictly in the future, and the raw
available_seats capacity ceiling is positive; the request ledger is not
consulted at all. -/
theorem c6_isBookable_uses_capacity_ceiling (t : Trip) (now : Int) :
    isBookable t now = true ↔
      (t.trip_status = TripStatus.scheduled ∧ now < t.departure_time ∧
        0 < t.available_seats) := by
  simp [isBookable, Bool.and_eq_true, beq_iff_eq, decide_eq_true_eq, and_assoc]

/-- C7: the claim states a second reject yields the same final state and
raises InvalidStateTransitionError.  On a concrete pending request the
final state of two rejects indeed equals the state after one, but the
second call returns no error at all: updateStatus performs no transition
check and the code defines no InvalidStateTransitionError. -/
theorem c7_counterexample :
    (rejectRequest (rejectRequest dbPend 10).1 10).1 =
      (rejectRequest dbPend 10).1 ∧
    (rejectRequest (rejectRequest dbPend 10).1 10).2 = none := by
  decide

/-! Helper lemmas about the status-update machinery. -/

lemma updateStatus_fst (db : DB) (rid : Nat) (st : RequestStatus)
    (r : TripRequest) (h : findRequest db rid = some r) :
    (updateStatus db rid st).1 = setRequestStatus db rid st := by
  simp only [updateStatus, h]

lemma updateStatus_snd_of_ne (db : DB) (rid : Nat) (st : RequestStatus)
    (hst : st ≠ RequestStatus.approved)
    (r : TripRequest) (h : findRequest db rid = some r) :
    (updateStatus db rid st).2 = none := by
  simp only [updateStatus, h, if_neg hst]

lemma find?_map_set (l : List TripRequest) (rid : Nat) (st : RequestStatus) :
    ((l.map fun r =>
        if r.id == rid then { r with request_status := st } else r).find?
      fun r => r.id == rid) =
      (l.find? fun r => r.id == rid).map
        fun r => { r with request_status := st } := by
  rw [List.find?_map]
  have hp : ((fun r : TripRequest => r.id == rid) ∘ fun r =>
      if r.id == rid then { r with request_status := st } else r) =
      fun r : TripRequest => r.id == rid := by
    funext r
    by_cases h : (r.id == rid) = true <;> simp [Function.comp, h]
  rw [hp]
  cases hf : l.find? fun r => r.id == rid with
  | none => rfl
  | some r =>
      have hr : r.id = rid := by simpa using List.find?_some hf
      simp [hr]

lemma findRequest_set_self (db : DB) (rid : Nat) (st : RequestStatus) :
    findRequest (setRequestStatus db rid st) rid =
      (findRequest db rid).map fun r => { r with request_status := st } := by
  unfold findRequest setRequestStatus
  exact find?_map_set db.requests rid st

lemma setRequestStatus_setRequestStatus (db : DB) (rid : Nat)
    (st1 st2 : RequestStatus) :
    setRequestStatus (setRequestStatus db rid st1) rid st2 =
      setRequestStatus db rid st2 := by
  unfold setRequestStatus
  simp only [List.map_map]
  congr 1
  apply List.map_congr_left
  intro r _
  by_cases h : (r.id == rid) = true <;> simp [Function.comp, h]

lemma mem_unique_of_nodup_ids {l : List TripRequest}
    (h : (l.map fun r => r.id).Nodup) {a b : TripRequest}
    (ha : a ∈ l) (hb : b ∈ l) (hid : a.id = b.id) : a = b :=
  List.inj_on_of_nodup_map h ha hb hid

lemma findRequest_eq_of_nodup {db : DB}
    (h : (db.requests.map fun r => r.id).Nodup)
    {req : TripRequest} (hmem : req ∈ db.requests) :
    findRequest db req.id = some req := by
  unfold findRequest
  cases hf : db.requests.find? fun r => r.id == req.id with
  | none =>
      exfalso
      have := List.find?_eq_none.mp hf req hmem
      simp at this
  | some x =>
      have hx : x ∈ db.requests := List.mem_of_find?_eq_some hf
      have hpx : (x.id == req.id) = true := by simpa using List.find?_some hf
      have hxe : x = req :=
        mem_unique_of_nodup_ids h hx hmem (by simpa using hpx)
      rw [hxe]

lemma seats_sum_set_of_ne (l : List TripRequest) (tid rid : Nat)
    (st : RequestStatus) (hst : st ≠ RequestStatus.approved)
    (h : ∀ r ∈ l, r.id = rid → r.request_status ≠ RequestStatus.approved) :
    (((l.map fun r =>
          if r.id == rid then { r with request_status := st } else r).filter
        fun r => r.trip_id == tid &&
          r.request_status == RequestStatus.approved).map
      fun r => r.requested_seats).sum =
    ((l.filter fun r => r.trip_id == tid &&
        r.request_status == RequestStatus.approved).map
      fun r => r.requested_seats).sum := by
  induction l with
  | nil => rfl
  | cons a l ih =>
      have ht : ∀ r ∈ l, r.id = rid →
          r.request_status ≠ RequestStatus.approved :=
        fun r hr => h r (List.mem_cons_of_mem a hr)
      by_cases ha : (a.id == rid) = true
      · have haid : a.id = rid := by simpa using ha
        have ha' : a.request_status ≠ RequestStatus.approved :=
          h a (List.mem_cons_self a l) haid
        have hhead : (if a.id == rid then
            ({ a with request_status := st } : TripRequest) else a) =
            { a with request_status := st } := if_pos ha
        have hA : ¬((({ a with request_status := st } : TripRequest).trip_id ==
            tid && (({ a with request_status := st } :
              TripRequest).request_status == RequestStatus.approved)) = true) := by
          simp [hst]
        have hB : ¬((a.trip_id == tid &&
            (a.request_status == RequestStatus.approved)) = true) := by
          simp [ha']
        rw [List.map_cons, hhead, List.filter_cons, List.filter_cons,
            if_neg hA, if_neg hB]
        exact ih ht
      · have hhead : (if a.id == rid then
            ({ a with request_status := st } : TripRequest) else a) = a :=
          if_neg ha
        rw [List.map_cons, hhead]
        by_cases hpa : (a.trip_id == tid &&
            (a.request_status == RequestStatus.approved)) = true
        · rw [List.filter_cons, List.filter_cons, if_pos hpa, if_pos hpa,
              List.map_cons, List.map_cons, List.sum_cons, List.sum_cons,
              ih ht]
        · rw [List.filter_cons, List.filter_cons, if_neg hpa, if_neg hpa]
          exact ih ht

lemma approvedSeats_set_of_ne (db : DB) (tid rid : Nat) (st : RequestStatus)
    (hst : st ≠ RequestStatus.approved)
    (h : ∀ r ∈ db.requests, r.id = rid →
      r.request_status ≠ RequestStatus.approved) :
    approvedSeats (setRequestStatus db rid st) tid = approvedSeats db tid := by
  unfold approvedSeats setRequestStatus
  exact seats_sum_set_of_ne db.requests tid rid st hst h

/-- C7 amended: calling reject twice on an existing request leaves the
same final state as calling it once, and the second call (like the first)
returns no error at all: updateStatus performs no transition check and
the code defines no InvalidStateTransitionError. -/
theorem c7_reject_idempotent_no_error (db : DB) (rid : Nat)
    (r : TripRequest) (h : findRequest db rid = some r) :
    (rejectRequest db rid).2 = none ∧
    (rejectRequest (rejectRequest db rid).1 rid).1 =
      (rejectRequest db rid).1 ∧
    (rejectRequest (rejectRequest db rid).1 rid).2 = none := by
  have hni : RequestStatus.rejected ≠ RequestStatus.approved := by decide
  have h1 : (rejectRequest db rid).1 =
      setRequestStatus db rid RequestStatus.rejected :=
    updateStatus_fst db rid _ r h
  have hf2 : findRequest (setRequestStatus db rid RequestStatus.rejected) rid =
      some { r with request_status := RequestStatus.rejected } := by
    rw [findRequest_set_self, h]
    rfl
  refine ⟨updateStatus_snd_of_ne db rid _ hni r h, ?_, ?_⟩
  · rw [h1]
    rw [show (rejectRequest (setRequestStatus db rid RequestStatus.rejected) rid).1 =
        setRequestStatus (setRequestStatus db rid RequestStatus.rejected) rid
          RequestStatus.rejected from updateStatus_fst _ _ _ _ hf2]
    exact setRequestStatus_setRequestStatus db rid _ _
  · rw [h1]
    exact updateStatus_snd_of_ne _ _ _ hni _ hf2

/-- C7 witness: the amended statement evaluated on the concrete pending
request of dbPend. -/
theorem c7_witness :
    findRequest dbPend 10 =
      some { id := 10, trip_id := 1, passenger_id := 2,
             requested_seats := 1,
             request_status := RequestStatus.pending } ∧
    ((rejectRequest dbPend 10).2 = none ∧
     (rejectRequest (rejectRequest dbPend 10).1 10).1 =
       (rejectRequest dbPend 10).1 ∧
     (rejectRequest (rejectRequest dbPend 10).1 10).2 = none) :=
  ⟨by decide,
   c7_reject_idempotent_no_error dbPend 10
     { id := 10, trip_id := 1, passenger_id := 2, requested_seats := 1,
       request_status := RequestStatus.pending } (by decide)⟩

/-- C9: approving a pending request (the reserve step) and then
cancelling that request (the release step) restores getRemainingSeats of
every trip to its value before the approval.  The store keeps the status
write even when the approval also surfaced an error, so the statement
needs no success hypothesis: it covers successful approvals in
particular. -/
theorem c9_reserve_release_roundtrip (db : DB) (t : Trip)
    (req : TripRequest)
    (hids : (db.requests.map fun r => r.id).Nodup)
    (hmem : req ∈ db.requests)
    (hpend : req.request_status = RequestStatus.pending) :
    getRemainingSeats ((cancelRequest (approveRequest db req.id).1 req.id).1) t =
      getRemainingSeats db t := by
  have hf : findRequest db req.id = some req := findRequest_eq_of_nodup hids hmem
  have h1 : (approveRequest db req.id).1 =
      setRequestStatus db req.id RequestStatus.approved :=
    updateStatus_fst db req.id _ req hf
  have hf2 : findRequest (setRequestStatus db req.id RequestStatus.approved)
      req.id = some { req with request_status := RequestStatus.approved } := by
    rw [findRequest_set_self, hf]
    rfl
  have h2 : (cancelRequest (setRequestStatus db req.id RequestStatus.approved)
      req.id).1 = setRequestStatus db req.id RequestStatus.cancelled := by
    rw [show (cancelRequest (setRequestStatus db req.id RequestStatus.approved)
        req.id).1 =
        setRequestStatus (setRequestStatus db req.id RequestStatus.approved)
          req.id RequestStatus.cancelled from updateStatus_fst _ _ _ _ hf2]
    exact setRequestStatus_setRequestStatus db req.id _ _
  rw [h1, h2]
  have hseats : approvedSeats
      (setRequestStatus db req.id RequestStatus.cancelled) t.id =
      approvedSeats db t.id := by
    apply approvedSeats_set_of_ne
    · decide
    · intro rr hrr hid
      have hre : rr = req := mem_unique_of_nodup_ids hids hrr hmem hid
      rw [hre, hpend]
      decide
  have htrips : findTrip (setRequestStatus db req.id RequestStatus.cancelled)
      t.id = findTrip db t.id := rfl
  simp only [getRemainingSeats, htrips, hseats]

/-- C9 witness: the round trip evaluated on the concrete pending request
of dbPend. -/
theorem c9_witness :
    ((dbPend.requests.map fun r => r.id).Nodup ∧
     ({ id := 10, trip_id := 1, passenger_id := 2, requested_seats := 1,
        request_status := RequestStatus.pending } : TripRequest) ∈
       dbPend.requests) ∧
    getRemainingSeats ((cancelRequest (approveRequest dbPend 10).1 10).1)
        tripA = getRemainingSeats dbPend tripA :=
  ⟨⟨by decide, by decide⟩,
   c9_reserve_release_roundtrip dbPend tripA
     { id := 10, trip_id := 1, passenger_id := 2, requested_seats := 1,
       request_status := RequestStatus.pending }
     (by decide) (by decide) (by decide)⟩

/-! Reachability invariants backing the uniqueness claims. -/

lemma setFn_trip_id (rid : Nat) (st : RequestStatus) (r : TripRequest) :
    (if r.id == rid then ({ r with request_status := st } : TripRequest)
      else r).trip_id = r.trip_id := by
  by_cases h : (r.id == rid) = true <;> simp [h]

lemma setFn_passenger_id (rid : Nat) (st : RequestStatus) (r : TripRequest) :
    (if r.id == rid then ({ r with request_status := st } : TripRequest)
      else r).passenger_id = r.passenger_id := by
  by_cases h : (r.id == rid) = true <;> simp [h]

lemma reachable_invariants {db : DB} (h : Reachable db) :
    pairUnique db ∧ requestsHaveTrips db := by
  induction h with
  | init =>
      exact ⟨List.Pairwise.nil, fun r hr => absurd hr (List.not_mem_nil r)⟩
  | newTrip t _ ih =>
      rename_i db _
      unfold createTrip
      by_cases hd : (db.trips.any fun x => x.id == t.id) = true
      · rw [if_pos hd]
        exact ih
      · rw [if_neg hd]
        refine ⟨ih.1, fun r hr => ?_⟩
        obtain ⟨tr, htr, hid⟩ := ih.2 r hr
        exact ⟨tr, List.mem_append_left _ htr, hid⟩
  | newRequest rid tid pid seats _ ih =>
      rename_i db _
      cases hft : findTrip db tid with
      | none =>
          simp only [createRequest, hft]
          exact ih
      | some tr =>
          simp only [createRequest, hft]
          by_cases hpair : (db.requests.any fun r =>
              r.trip_id == tid && r.passenger_id == pid) = true
          · rw [if_pos hpair]
            exact ih
          · rw [if_neg hpair]
            by_cases hid : (db.requests.any fun r => r.id == rid) = true
            · rw [if_pos hid]
              exact ih
            · rw [if_neg hid]
              constructor
              · unfold pairUnique
                rw [List.pairwise_append]
                refine ⟨ih.1, List.pairwise_singleton _ _, ?_⟩
                intro a ha b hb
                rw [List.mem_singleton] at hb
                subst hb
                intro hcon
                apply hpair
                refine List.any_eq_true.mpr ⟨a, ha, ?_⟩
                simp only at hcon
                simp [hcon.1, hcon.2]
              · intro r hr
                rw [show ({ db with requests := db.requests ++
                    [{ id := rid, trip_id := tid, passenger_id := pid,
                       requested_seats := seats,
                       request_status := RequestStatus.pending }] } :
                    DB).requests = db.requests ++
                    [{ id := rid, trip_id := tid, passenger_id := pid,
                       requested_seats := seats,
                       request_status := RequestStatus.pending }] from rfl,
                  List.mem_append] at hr
                cases hr with
                | inl h0 => exact ih.2 r h0
                | inr h1 =>
                    rw [List.mem_singleton] at h1
                    subst h1
                    have htr : tr ∈ db.trips := List.mem_of_find?_eq_some hft
                    have hide : tr.id = tid := by
                      simpa using List.find?_some hft
                    exact ⟨tr, htr, hide⟩
  | statusChange rid st _ ih =>
      rename_i db _
      cases hfr : findRequest db rid with
      | none =>
          simp only [updateStatus, hfr]
          exact ih
      | some r =>
          simp only [updateStatus, hfr]
          constructor
          · unfold pairUnique setRequestStatus
            rw [List.pairwise_map]
            refine ih.1.imp ?_
            intro a b hab hcon
            apply hab
            have h1 := hcon.1
            have h2 := hcon.2
            rw [setFn_trip_id, setFn_trip_id] at h1
            rw [setFn_passenger_id, setFn_passenger_id] at h2
            exact ⟨h1, h2⟩
          · intro q hq
            obtain ⟨q0, hq0, rfl⟩ := List.mem_map.mp hq
            obtain ⟨tr, htr, hid⟩ := ih.2 q0 hq0
            refine ⟨tr, htr, ?_⟩
            rw [setFn_trip_id]
            exact hid

lemma length_filter_le_one {l : List TripRequest}
    (hl : l.Pairwise fun a b =>
      ¬(a.trip_id = b.trip_id ∧ a.passenger_id = b.passenger_id))
    (p : TripRequest → Bool) (tid pid : Nat)
    (hp : ∀ r, p r = true → r.trip_id = tid ∧ r.passenger_id = pid) :
    (l.filter p).length ≤ 1 := by
  induction l with
  | nil => simp
  | cons a l ih =>
      obtain ⟨ha, hl2⟩ := List.pairwise_cons.mp hl
      by_cases hpa : p a = true
      · have hnil : l.filter p = [] := by
          rw [List.filter_eq_nil_iff]
          intro b hb hpb
          exact ha b hb ⟨(hp a hpa).1.trans (hp b hpb).1.symm,
                         (hp a hpa).2.trans (hp b hpb).2.symm⟩
        rw [List.filter_cons, if_pos hpa, hnil]
        simp
      · rw [List.filter_cons, if_neg hpa]
        exact ih hl2

/-- C4: in every store reachable through the provided operations, at most
one request of a (trip, passenger) pair is active (pending or approved) -
the UNIQUE(trip_id, passenger_id) constraint in fact admits at most one
row per pair of any status - and while an active request exists, a second
create for the same pair fails and persists nothing. -/
theorem c4_one_active_request_per_pair {db : DB} (h : Reachable db)
    (tid pid : Nat) :
    (db.requests.filter fun r => r.trip_id == tid &&
        r.passenger_id == pid &&
        (r.request_status == RequestStatus.pending ||
         r.request_status == RequestStatus.approved)).length ≤ 1 ∧
    ∀ r ∈ db.requests, r.trip_id = tid → r.passenger_id = pid →
      (r.request_status = RequestStatus.pending ∨
       r.request_status = RequestStatus.approved) →
      ∀ rid seats, (createRequest db rid tid pid seats).1 = db ∧
        (createRequest db rid tid pid seats).2 ≠ none := by
  obtain ⟨hpu, _⟩ := reachable_invariants h
  constructor
  · refine length_filter_le_one hpu _ tid pid ?_
    intro r hr
    have hr2 := hr
    simp only [Bool.and_eq_true, beq_iff_eq] at hr2
    exact ⟨hr2.1.1, hr2.1.2⟩
  · intro r hr htid hpid _ rid seats
    cases hft : findTrip db tid with
    | none =>
        refine ⟨?_, ?_⟩ <;> simp [createRequest, hft]
    | some tr =>
        have hpair : (db.requests.any fun q =>
            q.trip_id == tid && q.passenger_id == pid) = true :=
          List.any_eq_true.mpr ⟨r, hr, by simp [htid, hpid]⟩
        refine ⟨?_, ?_⟩ <;> simp [createRequest, hft, hpair]

/-- C4 witness: the statement evaluated on the reachable store holding a
pending request of passenger 2 on trip 1. -/
theorem c4_witness :
    Reachable reachedPending ∧
    ((reachedPending.requests.filter fun r => r.trip_id == 1 &&
        r.passenger_id == 2 &&
        (r.request_status == RequestStatus.pending ||
         r.request_status == RequestStatus.approved)).length ≤ 1 ∧
     ∀ r ∈ reachedPending.requests, r.trip_id = 1 → r.passenger_id = 2 →
       (r.request_status = RequestStatus.pending ∨
        r.request_status = RequestStatus.approved) →
       ∀ rid seats, (createRequest reachedPending rid 1 2 seats).1 =
           reachedPending ∧
         (createRequest reachedPending rid 1 2 seats).2 ≠ none) :=
  ⟨Reachable.newRequest 10 1 2 1 (Reachable.newTrip tripA Reachable.init),
   c4_one_active_request_per_pair
     (Reachable.newRequest 10 1 2 1
       (Reachable.newTrip tripA Reachable.init)) 1 2⟩

/-- C10: the store keeps at most one request row per (trip, passenger)
pair across ALL statuses, and because rows are never deleted - cancel and
reject only rewrite request_status in place - a passenger whose request
on a trip was rejected or cancelled can never create another request for
that trip: the insert is rejected by the unique constraint and the store
is unchanged. -/
theorem c10_row_per_pair_blocks_rerequest {db : DB} (h : Reachable db)
    (r : TripRequest) (hr : r ∈ db.requests)
    (hst : r.request_status = RequestStatus.rejected ∨
           r.request_status = RequestStatus.cancelled) :
    (db.requests.filter fun q => q.trip_id == r.trip_id &&
        q.passenger_id == r.passenger_id).length ≤ 1 ∧
    ∀ rid seats, createRequest db rid r.trip_id r.passenger_id seats =
      (db, some Err.uniqueViolation) := by
  obtain ⟨hpu, hrt⟩ := reachable_invariants h
  constructor
  · refine length_filter_le_one hpu _ r.trip_id r.passenger_id ?_
    intro q hq
    simp only [Bool.and_eq_true, beq_iff_eq] at hq
    exact hq
  · intro rid seats
    obtain ⟨tr, htr, hid⟩ := hrt r hr
    cases hft : findTrip db r.trip_id with
    | none =>
        exfalso
        have := List.find?_eq_none.mp hft tr htr
        simp [hid] at this
    | some t0 =>
        have hpair : (db.requests.any fun q =>
            q.trip_id == r.trip_id && q.passenger_id == r.passenger_id) =
            true := List.any_eq_true.mpr ⟨r, hr, by simp⟩
        simp only [createRequest, hft]
        rw [if_pos hpair]

/-- C10 witness: the statement evaluated on the reachable store where the
request of passenger 2 on trip 1 has been cancelled. -/
theorem c10_witness :
    Reachable reachedCancelled ∧
    ((reachedCancelled.requests.filter fun q => q.trip_id == 1 &&
        q.passenger_id == 2).length ≤ 1 ∧
     ∀ rid seats, createRequest reachedCancelled rid 1 2 seats =
       (reachedCancelled, some Err.uniqueViolation)) :=
  ⟨Reachable.statusChange 10 RequestStatus.cancelled
     (Reachable.newRequest 10 1 2 1 (Reachable.newTrip tripA Reachable.init)),
   c10_row_per_pair_blocks_rerequest
     (Reachable.statusChange 10 RequestStatus.cancelled
       (Reachable.newRequest 10 1 2 1
         (Reachable.newTrip tripA Reachable.init)))
     { id := 10, trip_id := 1, passenger_id := 2, requested_seats := 1,
       request_status := RequestStatus.cancelled }
     (by decide) (Or.inr rfl)⟩

/-- C8: once the departure time of a trip has passed (now at or after
departure_time, the spec definition of a started trip), the cancel and
update handlers of trips.js answer the driver with the
trip-already-started error and leave the store unchanged, whatever the
stored trip_status says.  Trip.hasStarted itself is modelled from the
spec because only its call sites appear under src. -/
theorem c8_started_trip_guard (db : DB) (tid uid : Nat) (now : Int)
    (t : Trip) (hfind : findTrip db tid = some t)
    (hdrv : t.driver_id = uid) (hstart : t.departure_time ≤ now)
    (u : TripUpdate) :
    cancelTripRoute db tid uid now = (db, some Err.tripAlreadyStarted) ∧
    updateTripRoute db tid uid now u = (db, some Err.tripAlreadyStarted) := by
  have hs : hasStarted t now = true := by simp [hasStarted, hstart]
  have hd : ¬(t.driver_id ≠ uid) := fun hh => hh hdrv
  constructor
  · simp only [cancelTripRoute, hfind]
    rw [if_neg hd, if_pos hs]
  · simp only [updateTripRoute, hfind]
    rw [if_neg hd, if_pos hs]

/-- C8 witness: the guard evaluated at time 200 on tripA, which departed
at time 100 and is still stored as scheduled. -/
theorem c8_witness :
    (findTrip dbPend 1 = some tripA ∧ tripA.driver_id = 99 ∧
      tripA.departure_time ≤ 200) ∧
    (cancelTripRoute dbPend 1 99 200 = (dbPend, some Err.tripAlreadyStarted) ∧
     updateTripRoute dbPend 1 99 200
       { departure_datetime := none, available_seats := none,
         status := none } = (dbPend, some Err.tripAlreadyStarted)) :=
  ⟨⟨by decide, by decide, by decide⟩,
   c8_started_trip_guard dbPend 1 99 200 tripA (by decide) (by decide)
     (by decide)
     { departure_datetime := none, available_seats := none, status := none }⟩

/-! Helper lemmas for the stop-point renumbering claim. -/

lemma lookupFn_route_id (tbl : List (Nat × Nat)) (s : StopPoint) :
    (match tbl.lookup s.id with
     | some n => { s with stop_order := n }
     | none => s).route_id = s.route_id := by
  cases tbl.lookup s.id <;> rfl

lemma filter_map_route (l : List StopPoint) (g : StopPoint → StopPoint)
    (hg : ∀ s, (g s).route_id = s.route_id) (R : Nat) :
    (l.map g).filter (fun s => s.route_id == R) =
      (l.filter fun s => s.route_id == R).map g := by
  induction l with
  | nil => rfl
  | cons a l ih =>
      by_cases ha : (a.route_id == R) = true
      · have hga : ((g a).route_id == R) = true := by rw [hg]; exact ha
        rw [List.map_cons, List.filter_cons, List.filter_cons, if_pos hga,
            if_pos ha, List.map_cons, ih]
      · have hga : ¬((g a).route_id == R) = true := by rw [hg]; exact ha
        rw [List.map_cons, List.filter_cons, List.filter_cons, if_neg hga,
            if_neg ha, ih]

lemma stop_eq_of_nodup_ids {l : List StopPoint}
    (h : (l.map fun s => s.id).Nodup) {a b : StopPoint}
    (ha : a ∈ l) (hb : b ∈ l) (hid : a.id = b.id) : a = b :=
  List.inj_on_of_nodup_map h ha hb hid

lemma map_lookup_enumFrom (l : List StopPoint) (k : Nat)
    (hids : (l.map fun s => s.id).Nodup) :
    (l.map fun s =>
      match ((l.enumFrom k).map fun p => (p.2.id, p.1 + 1)).lookup s.id with
      | some n => { s with stop_order := n }
      | none => s) =
    (l.enumFrom k).map fun p => { p.2 with stop_order := p.1 + 1 } := by
  induction l generalizing k with
  | nil => rfl
  | cons x l ih =>
      have hids3 : ((x :: l).map fun s => s.id).Nodup := hids
      rw [List.map_cons] at hids3
      obtain ⟨hx, hids2⟩ := List.nodup_cons.mp hids3
      have hhead : ((((x :: l).enumFrom k).map fun p =>
          (p.2.id, p.1 + 1)).lookup x.id) = some (k + 1) := by
        simp [List.enumFrom, List.lookup]
      have htail : ∀ s ∈ l,
          ((((x :: l).enumFrom k).map fun p =>
            (p.2.id, p.1 + 1)).lookup s.id) =
          (((l.enumFrom (k + 1)).map fun p =>
            (p.2.id, p.1 + 1)).lookup s.id) := by
        intro s hs
        have hsne : (s.id == x.id) = false := by
          have hne : s.id ≠ x.id := fun hEq =>
            hx (hEq ▸ List.mem_map_of_mem (fun s => s.id) hs)
          simpa using hne
        simp [List.enumFrom, List.lookup, hsne]
      have hstep : ((x :: l).map fun s =>
          match (((x :: l).enumFrom k).map fun p =>
              (p.2.id, p.1 + 1)).lookup s.id with
          | some n => { s with stop_order := n }
          | none => s) =
          { x with stop_order := k + 1 } :: (l.map fun s =>
            match ((l.enumFrom (k + 1)).map fun p =>
                (p.2.id, p.1 + 1)).lookup s.id with
            | some n => { s with stop_order := n }
            | none => s) := by
        rw [List.map_cons]
        congr 1
        · rw [hhead]
        · exact List.map_congr_left fun s hs => by rw [htail s hs]
      rw [hstep, ih (k + 1) hids2]
      rfl

/-- C5: deleting a stop succeeds and renumbers the remaining stops of its
route: the multiset of their new stop_order values is exactly the
contiguous sequence 1..N, and the previous relative order is preserved -
a remaining stop of the route with smaller old stop_order ends up with a
smaller new stop_order.  The hypotheses mirror the store constraints of
routes-init.js: SERIAL primary keys (distinct ids) and
UNIQUE(route_id, stop_order) (distinct orders within the route, which
also makes the ORDER BY of the renumbering subquery deterministic). -/
theorem c5_delete_renumbers_contiguously
    (stops : List StopPoint) (sid : Nat) (s : StopPoint)
    (hfind : (stops.find? fun x => x.id == sid) = some s)
    (hids : (stops.map fun x => x.id).Nodup)
    (hords : ((stops.filter fun x => x.route_id == s.route_id).map
      fun x => x.stop_order).Nodup) :
    (deleteStopPoint stops sid).2 = none ∧
    ((((deleteStopPoint stops sid).1.filter fun x =>
        x.route_id == s.route_id).map fun x => x.stop_order).Perm
      (List.range' 1 (((stops.filter fun x => !(x.id == sid)).filter fun x =>
        x.route_id == s.route_id).length))) ∧
    (∀ a ∈ (stops.filter fun x => !(x.id == sid)).filter
        (fun x => x.route_id == s.route_id),
     ∀ b ∈ (stops.filter fun x => !(x.id == sid)).filter
        (fun x => x.route_id == s.route_id),
     a.stop_order < b.stop_order →
     ∀ a2 ∈ (deleteStopPoint stops sid).1.filter
        (fun x => x.route_id == s.route_id),
     ∀ b2 ∈ (deleteStopPoint stops sid).1.filter
        (fun x => x.route_id == s.route_id),
     a2.id = a.id → b2.id = b.id → a2.stop_order < b2.stop_order) := by
  set rem := stops.filter fun x => !(x.id == sid) with hremdef
  set RR := rem.filter fun x => x.route_id == s.route_id with hRRdef
  have hdel : deleteStopPoint stops sid =
      (reorderStopPoints rem s.route_id, none) := by
    simp only [deleteStopPoint, hfind]
  have hresRoute : (deleteStopPoint stops sid).1.filter
      (fun x => x.route_id == s.route_id) =
      RR.map fun s0 =>
        match (rowNumberTable rem s.route_id).lookup s0.id with
        | some n => { s0 with stop_order := n }
        | none => s0 := by
    rw [hdel]
    exact filter_map_route rem _
      (lookupFn_route_id (rowNumberTable rem s.route_id)) s.route_id
  have hsperm : (List.insertionSort stopLe RR).Perm RR :=
    List.perm_insertionSort stopLe RR
  have hremids : (rem.map fun x => x.id).Nodup :=
    ((List.filter_sublist stops).map fun x => x.id).nodup hids
  have hrrids : (RR.map fun x => x.id).Nodup :=
    ((List.filter_sublist rem).map fun x => x.id).nodup hremids
  have hsortids : ((List.insertionSort stopLe RR).map fun x => x.id).Nodup :=
    (hsperm.map fun x => x.id).nodup_iff.mpr hrrids
  have hren : ((List.insertionSort stopLe RR).map fun s0 =>
      match (rowNumberTable rem s.route_id).lookup s0.id with
      | some n => { s0 with stop_order := n }
      | none => s0) =
      (List.insertionSort stopLe RR).enum.map
        (fun p => { p.2 with stop_order := p.1 + 1 }) :=
    map_lookup_enumFrom (List.insertionSort stopLe RR) 0 hsortids
  have hordersEq : (((List.insertionSort stopLe RR).map fun s0 =>
      match (rowNumberTable rem s.route_id).lookup s0.id with
      | some n => { s0 with stop_order := n }
      | none => s0).map fun x => x.stop_order) =
      List.range' 1 RR.length := by
    rw [hren, List.map_map]
    have h1 : ((fun x : StopPoint => x.stop_order) ∘
        fun p : Nat × StopPoint => { p.2 with stop_order := p.1 + 1 }) =
        fun p : Nat × StopPoint => p.1 + 1 := rfl
    rw [h1]
    have h2 : (List.insertionSort stopLe RR).enum.map
        (fun p : Nat × StopPoint => p.1 + 1) =
        ((List.insertionSort stopLe RR).enum.map Prod.fst).map
          (fun n => n + 1) := by
      rw [List.map_map]
      rfl
    rw [h2, List.enum_map_fst, List.range'_eq_map_range, hsperm.length_eq]
    exact List.map_congr_left fun a _ => Nat.add_comm a 1
  have hbperm : ((((deleteStopPoint stops sid).1.filter fun x =>
      x.route_id == s.route_id).map fun x => x.stop_order).Perm
      (List.range' 1 RR.length)) := by
    rw [hresRoute]
    have hp : ((RR.map fun s0 =>
        match (rowNumberTable rem s.route_id).lookup s0.id with
        | some n => { s0 with stop_order := n }
        | none => s0).map fun x => x.stop_order).Perm
        (((List.insertionSort stopLe RR).map fun s0 =>
          match (rowNumberTable rem s.route_id).lookup s0.id with
          | some n => { s0 with stop_order := n }
          | none => s0).map fun x => x.stop_order) :=
      (hsperm.symm.map _).map _
    exact hordersEq ▸ hp
  have hchar : ∀ c ∈ (deleteStopPoint stops sid).1.filter
      (fun x => x.route_id == s.route_id),
      ∃ i, ∃ hi : i < (List.insertionSort stopLe RR).length,
        c.id = (List.insertionSort stopLe RR)[i].id ∧
        c.stop_order = i + 1 := by
    intro c hc
    rw [hresRoute] at hc
    have hc2 : c ∈ (List.insertionSort stopLe RR).map fun s0 =>
        match (rowNumberTable rem s.route_id).lookup s0.id with
        | some n => { s0 with stop_order := n }
        | none => s0 :=
      (hsperm.symm.map _).mem_iff.mp hc
    rw [hren] at hc2
    obtain ⟨p, hp, hpc⟩ := List.mem_map.mp hc2
    obtain ⟨i, x⟩ := p
    rw [List.mem_enum_iff_getElem?, List.getElem?_eq_some] at hp
    obtain ⟨hi, hx⟩ := hp
    refine ⟨i, hi, ?_, ?_⟩
    · rw [← hpc, hx]
    · rw [← hpc]
  refine ⟨by rw [hdel], hbperm, ?_⟩
  intro a ha b hbm hab a2 ha2 b2 hb2 hida hidb
  obtain ⟨i, hi, haid, haord⟩ := hchar a2 ha2
  obtain ⟨j, hj, hbid, hbord⟩ := hchar b2 hb2
  have hain : a ∈ List.insertionSort stopLe RR := hsperm.mem_iff.mpr ha
  have hbin : b ∈ List.insertionSort stopLe RR := hsperm.mem_iff.mpr hbm
  have hia : (List.insertionSort stopLe RR)[i] = a :=
    stop_eq_of_nodup_ids hsortids (List.getElem_mem hi) hain
      (by rw [← haid, hida])
  have hjb : (List.insertionSort stopLe RR)[j] = b :=
    stop_eq_of_nodup_ids hsortids (List.getElem_mem hj) hbin
      (by rw [← hbid, hidb])
  have hij : i < j := by
    rcases Nat.lt_trichotomy i j with h | h | h
    · exact h
    · exfalso
      subst h
      have hab2 : a = b := hia.symm.trans hjb
      rw [hab2] at hab
      exact lt_irrefl _ hab
    · exfalso
      have hle : stopLe ((List.insertionSort stopLe RR).get ⟨j, hj⟩)
          ((List.insertionSort stopLe RR).get ⟨i, hi⟩) :=
        (List.sorted_insertionSort stopLe RR).rel_get_of_lt
          (Fin.mk_lt_mk.mpr h)
      have hle2 : b.stop_order ≤ a.stop_order := by
        have hgb : (List.insertionSort stopLe RR).get ⟨j, hj⟩ = b := by
          rw [List.get_eq_getElem]
          exact hjb
        have hga : (List.insertionSort stopLe RR).get ⟨i, hi⟩ = a := by
          rw [List.get_eq_getElem]
          exact hia
        rw [← hgb, ← hga]
        exact hle
      exact lt_irrefl _ (lt_of_lt_of_le hab hle2)
  rw [haord, hbord]
  exact Nat.succ_lt_succ hij

/-- C5 witness: deleting the stop with stop_order 2 from the route with
orders [1,2,3,4] leaves orders forming 1..3 in the prior relative
order. -/
theorem c5_witness :
    ((stops1234.find? fun x => x.id == 2) =
        some { id := 2, route_id := 7, stop_order := 2 } ∧
      (stops1234.map fun x => x.id).Nodup ∧
      ((stops1234.filter fun x => x.route_id == 7).map
        fun x => x.stop_order).Nodup) ∧
    ((deleteStopPoint stops1234 2).2 = none ∧
     ((((deleteStopPoint stops1234 2).1.filter fun x =>
         x.route_id == 7).map fun x => x.stop_order).Perm
       (List.range' 1 (((stops1234.filter fun x => !(x.id == 2)).filter
         fun x => x.route_id == 7).length))) ∧
     (∀ a ∈ (stops1234.filter fun x => !(x.id == 2)).filter
         (fun x => x.route_id == 7),
      ∀ b ∈ (stops1234.filter fun x => !(x.id == 2)).filter
         (fun x => x.route_id == 7),
      a.stop_order < b.stop_order →
      ∀ a2 ∈ (deleteStopPoint stops1234 2).1.filter
         (fun x => x.route_id == 7),
      ∀ b2 ∈ (deleteStopPoint stops1234 2).1.filter
         (fun x => x.route_id == 7),
      a2.id = a.id → b2.id = b.id → a2.stop_order < b2.stop_order)) :=
  ⟨⟨by decide, by decide, by decide⟩,
   c5_delete_renumbers_contiguously stops1234 2
     { id := 2, route_id := 7, stop_order := 2 }
     (by decide) (by decide) (by decide)⟩

end RoutesChat

